import Mathlib

/-!
Shallow embedding of the Data-Consistency-Checker core:
the validation/repair engine of src/backend/validationRules.js and the
scan coordinator / status projector of the ConsistencyChecker class
(src/unnamed/part_001).  JavaScript values that can appear in the checked
documents are modelled by the Value type below; numbers are modelled as
integers (every numeric constant of the rule set and every value parseInt
can produce is integral; floating point is out of scope for the claims).
-/

namespace DataConsistency

/-- A JavaScript value as it can occur in a checked document field.
Absence of a field (undefined) is modelled by Option.none at the
document level; null is its own value with typeof "object". -/
inductive Value where
  | str : String → Value
  | num : Int → Value
  | bool : Bool → Value
  | null : Value
deriving DecidableEq, Repr

/-- The JavaScript typeof operator on the modelled values. -/
def typeofValue : Value → String
  | .str _ => "string"
  | .num _ => "number"
  | .bool _ => "boolean"
  | .null => "object"

/-- JavaScript string coercion (template interpolation) of a value. -/
def toJsString : Value → String
  | .str s => s
  | .num n => toString n
  | .bool b => if b then "true" else "false"
  | .null => "null"

/-- JavaScript truthiness of a possibly-absent value: undefined, null,
0, false and the empty string are falsy. -/
def isTruthy : Option Value → Bool
  | none => false
  | some (.str s) => s ≠ ""
  | some (.num n) => n ≠ 0
  | some (.bool b) => b
  | some .null => false

/-- Whitespace that parseInt skips (ASCII approximation of the
JavaScript whitespace class). -/
def isJsSpace (c : Char) : Bool :=
  c = ' ' || c = '\t' || c = '\n' || c = '\r'

/-- The longest run of decimal digits at the front of a character list. -/
def leadingDigits (cs : List Char) : List Char :=
  cs.takeWhile Char.isDigit

/-- Value of a digit list read in base 10. -/
def digitsToNat (ds : List Char) : Nat :=
  ds.foldl (fun a c => a * 10 + (c.toNat - 48)) 0

/-- Reads a digit run at the front of the characters; none when there is
no digit (the NaN outcome of parseInt). -/
def parseIntDigits (cs : List Char) : Option Int :=
  let ds := leadingDigits cs
  if ds.isEmpty then none else some (Int.ofNat (digitsToNat ds))

/-- JavaScript parseInt(s, 10): skip leading whitespace, read an optional
sign and then the longest digit run; NaN (none) when no digit follows.
Trailing garbage is ignored, so parsing is based on the numeric head of
the string. -/
def parseInt (s : String) : Option Int :=
  match s.data.dropWhile isJsSpace with
  | '-' :: rest => (parseIntDigits rest).map (fun n => -n)
  | '+' :: rest => parseIntDigits rest
  | cs => parseIntDigits cs

/-- A document: an open attribute bag, field name to value, none for an
absent (undefined) field. -/
def Doc : Type := String → Option Value

/-- Assignment of one field of a document (repairedDoc[field] = v). -/
def Doc.set (d : Doc) (f : String) (v : Option Value) : Doc :=
  fun g => if g = f then v else d g

/-- The empty document. -/
def emptyDoc : Doc := fun _ => none

/-- A structured validation issue as pushed by validateDocument. -/
structure Issue where
  field : String
  issue : String
  severity : String
  description : String
deriving DecidableEq, Repr

/-- An element of the array validateDocument returns: either a structured
issue object, or the bare string the function returns when no rule set
exists for the collection. -/
inductive ValidationItem where
  | issueItem : Issue → ValidationItem
  | rawMsg : String → ValidationItem
deriving DecidableEq, Repr

/-- A repair action as pushed by repairDocument; oldValue and newValue
are possibly-undefined JavaScript values. -/
structure RepairAction where
  field : String
  action : String
  oldValue : Option Value
  newValue : Option Value
deriving DecidableEq, Repr

/-- A rule set, mirroring the validationRules entry shape.  The finite
maps of the source object literal are association lists in key order. -/
structure RuleSet where
  requiredFields : List String
  fieldTypes : List (String × String)
  allowedValues : List (String × List Value)
  valueRanges : List (String × Int × Int)
  defaultValues : List (String × Value)
  customValidations : List (String × (Value → Bool))

/-- Property read on a JavaScript object literal modelled as an
association list: the value at the key, none for undefined. -/
def jsGet {α : Type} : List (String × α) → String → Option α
  | [], _ => none
  | (k, a) :: rest, key => if key = k then some a else jsGet rest key

/-- Is there a dot strictly before the last character of the list? -/
def dotBeforeEnd : List Char → Bool
  | [] => false
  | [_] => false
  | c :: rest => c = '.' || dotBeforeEnd rest

/-- Is there a dot at a position that is neither the first nor the last
character of the list? -/
def hasInteriorDot : List Char → Bool
  | [] => false
  | _ :: rest => dotBeforeEnd rest

/-- Test of the email regex of the users rule set,
one or more non-space non-at characters, an at sign, then a domain of
such characters containing a dot with at least one character on each
side.  The local part is everything before the first at sign; requiring
the domain to be free of at signs makes that sign unique, as the regex
does.  Whitespace is the ASCII approximation used throughout this
embedding. -/
def emailRegexTest (s : String) : Bool :=
  let cs := s.data
  let localPart := cs.takeWhile (fun c => c ≠ '@')
  match cs.dropWhile (fun c => c ≠ '@') with
  | '@' :: domainPart =>
      !localPart.isEmpty && localPart.all (fun c => !isJsSpace c) &&
      !domainPart.isEmpty && domainPart.all (fun c => !isJsSpace c && c ≠ '@') &&
      hasInteriorDot domainPart
  | _ => false

/-- The allowed values of the role field. -/
def allowedRoles : List Value :=
  [Value.str "user", Value.str "admin", Value.str "moderator"]

/-- The email custom validation: the regex test applied to the field
value (the test method coerces its argument to a string). -/
def emailCheck (v : Value) : Bool :=
  emailRegexTest (toJsString v)

/-- The users rule set of src/backend/validationRules.js. -/
def usersRules : RuleSet where
  requiredFields := ["name", "email"]
  fieldTypes :=
    [("name", "string"), ("email", "string"), ("age", "number"),
     ("role", "string"), ("isActive", "boolean")]
  allowedValues := [("role", allowedRoles)]
  valueRanges := [("age", (0, 150))]
  defaultValues :=
    [("email", Value.str "missing@example.com"), ("age", Value.num 0),
     ("role", Value.str "user"), ("isActive", Value.bool true)]
  customValidations := [("email", emailCheck)]

/-- The validationRules object: one rule set, keyed "users". -/
def validationRules (collection : String) : Option RuleSet :=
  if collection = "users" then some usersRules else none

/-- Builds a structured issue element. -/
def mkIssue (field kind severity description : String) : ValidationItem :=
  .issueItem { field := field, issue := kind, severity := severity, description := description }

/-- The condition of the required-field check: the value is undefined,
null or the empty string. -/
def missingValue (v : Option Value) : Prop :=
  v = none ∨ v = some Value.null ∨ v = some (Value.str "")

instance missingValue.instDecidable (v : Option Value) : Decidable (missingValue v) := by
  unfold missingValue
  infer_instance

/-- Required-field check of validateDocument for one field: missing,
null or the empty string yields the high-severity issue. -/
def requiredFieldIssue (v : Option Value) (field : String) : List ValidationItem :=
  if missingValue v then
    [ mkIssue field "missing_required_field" "high"
        ("Required field '" ++ field ++ "' is missing or empty") ]
  else []

/-- Field-type check of validateDocument for one present field.  A string
in a numeric field is an issue only when parseInt fails on it. -/
def fieldTypeIssue (v : Option Value) (field expectedType : String) : List ValidationItem :=
  match v with
  | none => []
  | some w =>
    let actualType := typeofValue w
    if expectedType = "number" ∧ actualType = "string" then
      match w with
      | Value.str s =>
          if (parseInt s).isNone then
            [ mkIssue field "invalid_type" "medium"
                ("Field '" ++ field ++ "' should be " ++ expectedType ++
                  " but is " ++ actualType ++ " and cannot be parsed") ]
          else []
      | _ => []
    else if expectedType ≠ actualType then
      [ mkIssue field "invalid_type" "medium"
          ("Field '" ++ field ++ "' should be " ++ expectedType ++ " but is " ++ actualType) ]
    else []

/-- Allowed-values check of validateDocument for one present field. -/
def allowedValuesIssue (v : Option Value) (field : String) (allowed : List Value) :
    List ValidationItem :=
  match v with
  | none => []
  | some w =>
    if allowed.contains w then []
    else
      [ mkIssue field "invalid_value" "high"
          ("Field '" ++ field ++ "' has invalid value '" ++ toJsString w ++
            "'. Allowed: " ++ String.intercalate ", " (allowed.map toJsString)) ]

/-- Numeric coercion used by the range comparison: strings through
parseInt, booleans and null through the JavaScript relational coercion;
none stands for NaN (every comparison false). -/
def coerceForCompare : Value → Option Int
  | .str s => parseInt s
  | .num n => some n
  | .bool b => some (if b then 1 else 0)
  | .null => some 0

/-- The same coercion on a possibly-absent value; an undefined operand
also makes both comparisons false. -/
def coerceOptForCompare : Option Value → Option Int
  | none => none
  | some v => coerceForCompare v

/-- Range check of validateDocument for one present field; the bounds are
inclusive.  The description prints the coerced number for strings and
the raw value otherwise, as the template literal of the source does. -/
def valueRangeIssue (v : Option Value) (field : String) (lo hi : Int) : List ValidationItem :=
  match v with
  | none => []
  | some w =>
    match coerceForCompare w with
    | none => []
    | some k =>
      if k < lo ∨ k > hi then
        [ mkIssue field "out_of_range" "medium"
            ("Field '" ++ field ++ "' value " ++
              (match w with | Value.str _ => toString k | _ => toJsString w) ++
              " is out of range [" ++ toString lo ++ ", " ++ toString hi ++ "]") ]
      else []

/-- Custom-validation check of validateDocument for one present field. -/
def customValidationIssue (v : Option Value) (field : String) (pred : Value → Bool) :
    List ValidationItem :=
  match v with
  | none => []
  | some w =>
    if pred w then []
    else
      [ mkIssue field "custom_validation_failed" "medium"
          ("Field '" ++ field ++ "' failed custom validation") ]

/-- validateDocument of src/backend/validationRules.js: required fields,
then field types, allowed values, value ranges and custom validations,
in the key order of the rule object; an unknown collection returns the
single bare message string. -/
def validateDocument (document : Doc) (collection : String := "users") : List ValidationItem :=
  match validationRules collection with
  | none => [ .rawMsg ("No validation rules found for collection: " ++ collection) ]
  | some rules =>
    rules.requiredFields.flatMap (fun field => requiredFieldIssue (document field) field)
      ++ rules.fieldTypes.flatMap (fun p => fieldTypeIssue (document p.1) p.1 p.2)
      ++ rules.allowedValues.flatMap (fun p => allowedValuesIssue (document p.1) p.1 p.2)
      ++ rules.valueRanges.flatMap (fun p => valueRangeIssue (document p.1) p.1 p.2.1 p.2.2)
      ++ rules.customValidations.flatMap (fun p => customValidationIssue (document p.1) p.1 p.2)

/-- The result object of repairDocument. -/
structure RepairResult where
  document : Doc
  repairs : List RepairAction
  shouldDelete : Bool

/-- Builds a repair action record. -/
def mkAction (field action : String) (oldValue newValue : Option Value) : RepairAction :=
  { field := field, action := action, oldValue := oldValue, newValue := newValue }

/-- One iteration of the issue switch of repairDocument.  The state is
the repaired document so far and the repairs pushed so far; document is
the original input (the invalid_value branch reads its oldValue from
it).  A bare string element destructures to undefined field and issue
kind and falls through the switch. -/
def repairStep (rules : RuleSet) (document : Doc)
    (st : Doc × List RepairAction) : ValidationItem → Doc × List RepairAction
  | .rawMsg _ => st
  | .issueItem i =>
    let repairedDoc := st.1
    let repairs := st.2
    if i.issue = "missing_required_field" then
      let dflt := jsGet rules.defaultValues i.field
      if isTruthy dflt then
        (repairedDoc.set i.field dflt,
          repairs ++ [mkAction i.field "set_default" none dflt])
      else st
    else if i.issue = "invalid_type" then
      if i.field = "age" then
        match repairedDoc i.field with
        | some (Value.str s) =>
          match parseInt s with
          | some n =>
              (repairedDoc.set i.field (some (Value.num n)),
                repairs ++ [mkAction i.field "type_conversion"
                  (some (Value.str s)) (some (Value.num n))])
          | none => st
        | _ => st
      else st
    else if i.issue = "invalid_value" then
      if i.field = "role" then
        let dflt := jsGet rules.defaultValues i.field
        (repairedDoc.set i.field dflt,
          repairs ++ [mkAction i.field "set_default" (document i.field) dflt])
      else st
    else if i.issue = "out_of_range" then
      if i.field = "age" then
        match jsGet rules.valueRanges i.field with
        | some (lo, hi) =>
          match coerceOptForCompare (repairedDoc i.field) with
          | some k =>
              if k < lo then
                (repairedDoc.set i.field (some (Value.num lo)),
                  repairs ++ [mkAction i.field "clamp_to_min"
                    (some (Value.num k)) (some (Value.num lo))])
              else if k > hi then
                (repairedDoc.set i.field (some (Value.num hi)),
                  repairs ++ [mkAction i.field "clamp_to_max"
                    (some (Value.num k)) (some (Value.num hi))])
              else st
          | none => st
        | none => st
      else st
    else st

/-- The deletion predicate of repairDocument: a high-severity
invalid_value issue on a field whose configured default is absent or
falsy.  A bare string element has undefined severity and contributes
false. -/
def deleteCheck (rules : RuleSet) : ValidationItem → Bool
  | .issueItem i =>
      i.severity = "high" && i.issue = "invalid_value" &&
        !(isTruthy (jsGet rules.defaultValues i.field))
  | .rawMsg _ => false

/-- A rule set with every map empty.  Stands for the undefined rules
object of an unknown collection: on the issue lists such a collection
can actually receive (bare message strings only) the source never
dereferences the undefined object, and on those lists the two agree. -/
def emptyRuleSet : RuleSet where
  requiredFields := []
  fieldTypes := []
  allowedValues := []
  valueRanges := []
  defaultValues := []
  customValidations := []

/-- repairDocument of src/backend/validationRules.js: a shallow copy of
the document, the issue switch folded over the issues in order, and the
deletion verdict. -/
def repairDocument (document : Doc) (issues : List ValidationItem)
    (collection : String := "users") : RepairResult :=
  let rules := (validationRules collection).getD emptyRuleSet
  let st := issues.foldl (repairStep rules document) (document, [])
  { document := st.1
    repairs := st.2
    shouldDelete := issues.any (deleteCheck rules) }

/-!
The scan coordinator (class ConsistencyChecker, method checkCollection)
and the status projector (method updateConsistencyStatus).  Wall-clock
fields (timestamp, duration, the two status times) and the persisted
report id are elided; storage reads and writes are modelled by the
fetch argument and by fault injection, and the console logging is
dropped.  The per-document try/catch is modelled by a fault oracle: a
document whose id the oracle maps to a message stands for a document
whose processing (validation, repair or the storage write) threw with
that message.
-/

/-- A stored document: a Mongoose document with its id. -/
structure StoredDoc where
  id : String
  fields : Doc

/-- A detail entry of the report: the deletion shape, the per-repair
shape and the unrepaired shape of the source. -/
inductive Detail where
  | deleted : (documentId : String) → (details : String) → Detail
  | repaired : (documentId : String) → (issueLabel : String) →
      (oldValue newValue : Option Value) → Detail
  | unrepaired : (documentId : String) → (details : String) → Detail
deriving DecidableEq, Repr

/-- The report object built by checkCollection (time fields elided). -/
structure Report where
  collection : String
  totalDocuments : Nat
  inconsistenciesFound : Nat
  repairsApplied : Nat
  documentsDeleted : Nat
  errors : List String
  details : List Detail
deriving DecidableEq, Repr

/-- The issues array joined for a detail entry: map to description and
join with a separator.  A bare string element has an undefined
description property, which the template join prints as undefined. -/
def itemDescription : ValidationItem → String
  | .issueItem i => i.description
  | .rawMsg _ => "undefined"

/-- The joined description list of a detail entry. -/
def joinDescriptions (issues : List ValidationItem) : String :=
  String.intercalate "; " (issues.map itemDescription)

/-- The per-document body of the scan loop: on a fault, append the error
string; otherwise validate, and if issues were found count them and
either delete, apply the repairs, or record the unrepaired issues. -/
def processDocument (collectionName : String) (docFault : String → Option String)
    (report : Report) (sdoc : StoredDoc) : Report :=
  match docFault sdoc.id with
  | some m =>
      { report with
        errors := report.errors ++ ["Error processing document " ++ sdoc.id ++ ": " ++ m] }
  | none =>
    let issues := validateDocument sdoc.fields collectionName
    if issues.length > 0 then
      let report1 := { report with
        inconsistenciesFound := report.inconsistenciesFound + issues.length }
      let rr := repairDocument sdoc.fields issues collectionName
      if rr.shouldDelete then
        { report1 with
          documentsDeleted := report1.documentsDeleted + 1
          details := report1.details ++ [Detail.deleted sdoc.id (joinDescriptions issues)] }
      else if rr.repairs.length > 0 then
        { report1 with
          repairsApplied := report1.repairsApplied + rr.repairs.length
          details := report1.details ++ rr.repairs.map (fun r =>
            Detail.repaired sdoc.id (r.field ++ ": " ++ r.action) r.oldValue r.newValue) }
      else
        { report1 with
          details := report1.details ++ [Detail.unrepaired sdoc.id (joinDescriptions issues)] }
    else report

/-- The outcome of a call to checkCollection: the rejection thrown at
entry when a scan is already running (before any report exists), or a
returned report together with the value of the running flag after the
call. -/
inductive ScanOutcome where
  | alreadyRunning : ScanOutcome
  | completed : Report → (isRunningAfter : Bool) → ScanOutcome
deriving DecidableEq, Repr

/-- checkCollection of the ConsistencyChecker class.  isRunning is the
exclusive flag at entry; fetchResult models the Model.find call, error
for the scan-level fault of the outer try; docFault models per-document
faults.  The finally block resets the flag on every non-rejection path,
so every completed outcome carries the flag value false. -/
def checkCollection (isRunning : Bool) (collectionName : String)
    (fetchResult : Except String (List StoredDoc))
    (docFault : String → Option String) : ScanOutcome :=
  if isRunning then .alreadyRunning
  else
    let report0 : Report :=
      { collection := collectionName, totalDocuments := 0, inconsistenciesFound := 0,
        repairsApplied := 0, documentsDeleted := 0, errors := [], details := [] }
    match fetchResult with
    | .error msg =>
        .completed { report0 with errors := ["Consistency check failed: " ++ msg] } false
    | .ok documents =>
        let report1 := { report0 with totalDocuments := documents.length }
        .completed (documents.foldl (processDocument collectionName docFault) report1) false

/-- The status record written by updateConsistencyStatus (time fields
and the report reference elided). -/
structure StatusRecord where
  collection : String
  isConsistent : Bool
  allReplicasConsistent : Bool
deriving DecidableEq, Repr

/-- updateConsistencyStatus of the ConsistencyChecker class: the derived
verdict, upserted keyed by collection name.  allReplicasConsistent is
set to the same simulated value. -/
def updateConsistencyStatus (collectionName : String) (report : Report) : StatusRecord :=
  let isConsistent :=
    report.inconsistenciesFound == 0 ||
      report.inconsistenciesFound == report.repairsApplied + report.documentsDeleted
  { collection := collectionName
    isConsistent := isConsistent
    allReplicasConsistent := isConsistent }

/-!
Derived forms used by the verification below: the validator's output on
the users rule set as an explicit concatenation, and a closed form of
the validate-then-repair pipeline.
-/

/-- The validator's output for the users rule set, the checks spelled
out in rule order. -/
def usersValidation (document : Doc) : List ValidationItem :=
  requiredFieldIssue (document "name") "name"
    ++ requiredFieldIssue (document "email") "email"
    ++ fieldTypeIssue (document "name") "name" "string"
    ++ fieldTypeIssue (document "email") "email" "string"
    ++ fieldTypeIssue (document "age") "age" "number"
    ++ fieldTypeIssue (document "role") "role" "string"
    ++ fieldTypeIssue (document "isActive") "isActive" "boolean"
    ++ allowedValuesIssue (document "role") "role" allowedRoles
    ++ valueRangeIssue (document "age") "age" 0 150
    ++ customValidationIssue (document "email") "email" emailCheck

/-- Does the role value trigger the allowed-values repair? -/
def roleNeedsDefault (v : Option Value) : Bool :=
  match v with
  | none => false
  | some w => !(allowedRoles.contains w)

/-- The range repair on the age value: some (old coerced number, bound
clamped to) when the out-of-range issue fires, none otherwise. -/
def ageClampVal (v : Option Value) : Option (Int × Int) :=
  match v with
  | none => none
  | some w =>
    match coerceForCompare w with
    | none => none
    | some k => if k < 0 then some (k, 0) else if k > 150 then some (k, 150) else none

/-- The configured default for the email field. -/
def defaultEmailVal : Option Value := some (Value.str "missing@example.com")

/-- The configured default for the role field. -/
def defaultRoleVal : Option Value := some (Value.str "user")

/-- Closed form of the repaired document of the validate-then-repair
pipeline on the users rules. -/
def pipelineDoc (document : Doc) : Doc :=
  let d1 := if missingValue (document "email")
    then Doc.set document "email" defaultEmailVal else document
  let d2 := if roleNeedsDefault (document "role")
    then Doc.set d1 "role" defaultRoleVal else d1
  match ageClampVal (document "age") with
  | some kc => Doc.set d2 "age" (some (Value.num kc.2))
  | none => d2

/-- Closed form of the repair actions of the pipeline on the users
rules. -/
def pipelineRepairs (document : Doc) : List RepairAction :=
  (if missingValue (document "email")
    then [mkAction "email" "set_default" none defaultEmailVal] else [])
  ++ (if roleNeedsDefault (document "role")
    then [mkAction "role" "set_default" (document "role") defaultRoleVal] else [])
  ++ (match ageClampVal (document "age") with
      | some kc => [mkAction "age" (if kc.1 < 0 then "clamp_to_min" else "clamp_to_max")
          (some (Value.num kc.1)) (some (Value.num kc.2))]
      | none => [])

/-!
Concrete documents and the spec-side deletion predicate used by the
claims below.
-/

/-- The deletion condition exactly as the specification words it: some
issue has severity high, kind invalid_value, and its field has no
configured default value in the defaultValues map. -/
def specDeleteFlag (issues : List ValidationItem) : Bool :=
  issues.any (fun it =>
    match it with
    | .issueItem i =>
        i.severity == "high" && i.issue == "invalid_value" &&
          jsGet usersRules.defaultValues i.field == none
    | .rawMsg _ => false)

/-- A valid user document whose age is the numeric string "42". -/
def c2Doc : Doc := fun f =>
  if f = "name" then some (Value.str "Bob")
  else if f = "email" then some (Value.str "bob@example.com")
  else if f = "age" then some (Value.str "42")
  else none

/-- A document whose age is the number -5, below the range minimum. -/
def c7Doc : Doc := fun f =>
  if f = "age" then some (Value.num (-5)) else none

/-- A document with a valid email and a missing name. -/
def c9Doc : Doc := fun f =>
  if f = "email" then some (Value.str "a@b.c") else none

/-- A document whose age is the string "42abc": an integer head with
trailing garbage. -/
def c10Doc : Doc := fun f =>
  if f = "age" then some (Value.str "42abc") else none

/-!
Verification layer: step lemmas about the repair switch, fold lemmas
for each validator segment, and the closed form of the pipeline.
-/


theorem repairStep_mk_missing (rules : RuleSet) (document : Doc)
    (st : Doc × List RepairAction) (f sv d : String) :
    repairStep rules document st (mkIssue f "missing_required_field" sv d) =
      if isTruthy (jsGet rules.defaultValues f) then
        (st.1.set f (jsGet rules.defaultValues f),
          st.2 ++ [mkAction f "set_default" none (jsGet rules.defaultValues f)])
      else st := by
  simp [repairStep, mkIssue]

theorem repairStep_mk_itype_notAge (rules : RuleSet) (document : Doc)
    (st : Doc × List RepairAction) (f sv d : String) (hf : f ≠ "age") :
    repairStep rules document st (mkIssue f "invalid_type" sv d) = st := by
  simp [repairStep, mkIssue, hf]

theorem repairStep_mk_itype_age (rules : RuleSet) (document : Doc)
    (st : Doc × List RepairAction) (sv d : String) :
    repairStep rules document st (mkIssue "age" "invalid_type" sv d) =
      match st.1 "age" with
      | some (Value.str s) =>
        match parseInt s with
        | some n =>
            (st.1.set "age" (some (Value.num n)),
              st.2 ++ [mkAction "age" "type_conversion"
                (some (Value.str s)) (some (Value.num n))])
        | none => st
      | _ => st := by
  simp [repairStep, mkIssue]

theorem repairStep_mk_ivalue_role (rules : RuleSet) (document : Doc)
    (st : Doc × List RepairAction) (sv d : String) :
    repairStep rules document st (mkIssue "role" "invalid_value" sv d) =
      (st.1.set "role" (jsGet rules.defaultValues "role"),
        st.2 ++ [mkAction "role" "set_default" (document "role")
          (jsGet rules.defaultValues "role")]) := by
  simp [repairStep, mkIssue]

theorem repairStep_mk_oor_age_users (document : Doc)
    (st : Doc × List RepairAction) (sv d : String) :
    repairStep usersRules document st (mkIssue "age" "out_of_range" sv d) =
      match coerceOptForCompare (st.1 "age") with
      | some k =>
          if k < 0 then
            (st.1.set "age" (some (Value.num 0)),
              st.2 ++ [mkAction "age" "clamp_to_min" (some (Value.num k)) (some (Value.num 0))])
          else if k > 150 then
            (st.1.set "age" (some (Value.num 150)),
              st.2 ++ [mkAction "age" "clamp_to_max" (some (Value.num k)) (some (Value.num 150))])
          else st
      | none => st := by
  simp [repairStep, mkIssue, usersRules, jsGet]

theorem repairStep_mk_custom (rules : RuleSet) (document : Doc)
    (st : Doc × List RepairAction) (f sv d : String) :
    repairStep rules document st (mkIssue f "custom_validation_failed" sv d) = st := by
  simp [repairStep, mkIssue]

theorem foldl_reqName (document : Doc) (st : Doc × List RepairAction) (v : Option Value) :
    List.foldl (repairStep usersRules document) st (requiredFieldIssue v "name") = st := by
  unfold requiredFieldIssue
  split
  · rfl
  · rfl

theorem foldl_reqEmail (document : Doc) (st : Doc × List RepairAction) (v : Option Value) :
    List.foldl (repairStep usersRules document) st (requiredFieldIssue v "email") =
      if missingValue v then
        (st.1.set "email" defaultEmailVal,
          st.2 ++ [mkAction "email" "set_default" none defaultEmailVal])
      else st := by
  unfold requiredFieldIssue
  split
  · rfl
  · rfl

theorem foldl_typeNotAge (document : Doc) (st : Doc × List RepairAction) (v : Option Value)
    (f t : String) (hf : f ≠ "age") :
    List.foldl (repairStep usersRules document) st (fieldTypeIssue v f t) = st := by
  have h2 : ∀ d, repairStep usersRules document st (mkIssue f "invalid_type" "medium" d) = st :=
    fun d => repairStep_mk_itype_notAge usersRules document st f "medium" d hf
  rcases v with _ | (s | n | b | _)
  · rfl
  all_goals simp only [fieldTypeIssue, typeofValue]
  all_goals repeat' split
  all_goals simp [h2]

theorem foldl_typeAge (document : Doc) (st : Doc × List RepairAction) (v : Option Value)
    (hst : st.1 "age" = v) :
    List.foldl (repairStep usersRules document) st (fieldTypeIssue v "age" "number") = st := by
  rcases v with _ | (s | n | b | _)
  · rfl
  · simp only [fieldTypeIssue, typeofValue]
    rcases hp : parseInt s with _ | k
    · simp only [hp, Option.isNone_none, if_true, if_pos (And.intro rfl rfl)]
      have h1 := repairStep_mk_itype_age usersRules document st "medium"
        ("Field '" ++ "age" ++ "' should be " ++ "number" ++ " but is " ++ "string" ++
          " and cannot be parsed")
      simp only [List.foldl]
      rw [h1, hst]
      simp [hp]
    · simp [hp]
  · simp [fieldTypeIssue, typeofValue]
  · simp only [fieldTypeIssue, typeofValue]
    have h2 : ∀ d, repairStep usersRules document st (mkIssue "age" "invalid_type" "medium" d) = st := by
      intro d
      rw [repairStep_mk_itype_age, hst]
    simp [h2]
  · simp only [fieldTypeIssue, typeofValue]
    have h2 : ∀ d, repairStep usersRules document st (mkIssue "age" "invalid_type" "medium" d) = st := by
      intro d
      rw [repairStep_mk_itype_age, hst]
    simp [h2]

theorem foldl_allowedRole (document : Doc) (st : Doc × List RepairAction) (v : Option Value) :
    List.foldl (repairStep usersRules document) st (allowedValuesIssue v "role" allowedRoles) =
      if roleNeedsDefault v then
        (st.1.set "role" defaultRoleVal,
          st.2 ++ [mkAction "role" "set_default" (document "role") defaultRoleVal])
      else st := by
  rcases v with _ | w
  · rfl
  · simp only [allowedValuesIssue, roleNeedsDefault]
    split
    next hc =>
      simp at hc
      simp [hc]
    next hc =>
      have h2 := repairStep_mk_ivalue_role usersRules document st "high"
        ("Field '" ++ "role" ++ "' has invalid value '" ++ toJsString w ++
          "'. Allowed: " ++ String.intercalate ", " (allowedRoles.map toJsString))
      simp only [hc, List.foldl]
      rw [h2]
      simp [usersRules, jsGet, defaultRoleVal]

theorem foldl_rangeAge (document : Doc) (st : Doc × List RepairAction) (v : Option Value)
    (hst : st.1 "age" = v) :
    List.foldl (repairStep usersRules document) st (valueRangeIssue v "age" 0 150) =
      match ageClampVal v with
      | some kc =>
          (st.1.set "age" (some (Value.num kc.2)),
            st.2 ++ [mkAction "age" (if kc.1 < 0 then "clamp_to_min" else "clamp_to_max")
              (some (Value.num kc.1)) (some (Value.num kc.2))])
      | none => st := by
  rcases v with _ | w
  · rfl
  · simp only [valueRangeIssue, ageClampVal]
    rcases hk : coerceForCompare w with _ | k
    · rfl
    · dsimp only
      have h2 : coerceOptForCompare (st.1 "age") = some k := by
        rw [hst]
        simp [coerceOptForCompare, hk]
      by_cases hlo : k < 0
      · rw [if_pos (Or.inl hlo)]
        simp only [List.foldl]
        rw [repairStep_mk_oor_age_users, h2]
        simp [hlo]
      · by_cases hhi : k > 150
        · rw [if_pos (Or.inr hhi)]
          simp only [List.foldl]
          rw [repairStep_mk_oor_age_users, h2]
          simp [hlo, hhi]
        · rw [if_neg (not_or.mpr (And.intro hlo hhi))]
          simp [hlo, hhi]

theorem foldl_custom (document : Doc) (st : Doc × List RepairAction) (v : Option Value)
    (f : String) (pred : Value → Bool) :
    List.foldl (repairStep usersRules document) st (customValidationIssue v f pred) = st := by
  have h2 : ∀ d, repairStep usersRules document st (mkIssue f "custom_validation_failed" "medium" d) = st :=
    fun d => repairStep_mk_custom usersRules document st f "medium" d
  rcases v with _ | w
  · rfl
  · simp only [customValidationIssue]
    split
    · rfl
    · simp [h2]



theorem validate_users_eq (document : Doc) :
    validateDocument document "users" = usersValidation document := by
  simp [validateDocument, validationRules, usersRules, usersValidation]

theorem any_delete_required (v : Option Value) (f : String) :
    (requiredFieldIssue v f).any (deleteCheck usersRules) = false := by
  unfold requiredFieldIssue
  split <;> rfl

theorem any_delete_type (v : Option Value) (f t : String) :
    (fieldTypeIssue v f t).any (deleteCheck usersRules) = false := by
  unfold fieldTypeIssue
  repeat' first | (dsimp only) | split
  all_goals rfl

theorem any_delete_allowedRole (v : Option Value) :
    (allowedValuesIssue v "role" allowedRoles).any (deleteCheck usersRules) = false := by
  unfold allowedValuesIssue
  repeat' first | (dsimp only) | split
  all_goals rfl

theorem any_delete_range (v : Option Value) (f : String) (lo hi : Int) :
    (valueRangeIssue v f lo hi).any (deleteCheck usersRules) = false := by
  unfold valueRangeIssue
  repeat' first | (dsimp only) | split
  all_goals rfl

theorem any_delete_custom (v : Option Value) (f : String) (pred : Value → Bool) :
    (customValidationIssue v f pred).any (deleteCheck usersRules) = false := by
  unfold customValidationIssue
  repeat' first | (dsimp only) | split
  all_goals rfl

theorem usersValidation_any_delete (document : Doc) :
    (usersValidation document).any (deleteCheck usersRules) = false := by
  simp [usersValidation, List.any_append, any_delete_required, any_delete_type,
    any_delete_allowedRole, any_delete_range, any_delete_custom]

theorem foldl_pipeline (document : Doc) :
    List.foldl (repairStep usersRules document) (document, ([] : List RepairAction))
      (usersValidation document) = (pipelineDoc document, pipelineRepairs document) := by
  unfold usersValidation
  simp only [List.foldl_append]
  rw [foldl_reqName, foldl_reqEmail]
  dsimp only
  simp only [List.nil_append]
  set stE := (if missingValue (document "email") then
      (Doc.set document "email" defaultEmailVal,
        [mkAction "email" "set_default" none defaultEmailVal])
    else (document, ([] : List RepairAction))) with hstE
  have hageE : stE.1 "age" = document "age" := by
    rw [hstE]
    split <;> simp [Doc.set]
  rw [foldl_typeNotAge document _ _ "name" "string" (by decide)]
  rw [foldl_typeNotAge document _ _ "email" "string" (by decide)]
  rw [foldl_typeAge document stE (document "age") hageE]
  rw [foldl_typeNotAge document _ _ "role" "string" (by decide)]
  rw [foldl_typeNotAge document _ _ "isActive" "boolean" (by decide)]
  rw [foldl_allowedRole document stE (document "role")]
  set stR := (if roleNeedsDefault (document "role") then
      (stE.1.set "role" defaultRoleVal,
        stE.2 ++ [mkAction "role" "set_default" (document "role") defaultRoleVal])
    else stE) with hstR
  have hageR : stR.1 "age" = document "age" := by
    rw [hstR]
    split
    · simp [Doc.set, hageE]
    · exact hageE
  rw [foldl_rangeAge document stR (document "age") hageR]
  rw [foldl_custom document _ (document "email") "email" emailCheck]
  rcases hA : ageClampVal (document "age") with _ | kc <;>
    by_cases hE : missingValue (document "email") <;>
      by_cases hR : roleNeedsDefault (document "role") = true <;>
        simp [pipelineDoc, pipelineRepairs, hstR, hstE, hA, hE, hR, Doc.set]

theorem repair_pipeline_eq (document : Doc) :
    repairDocument document (validateDocument document "users") "users" =
      { document := pipelineDoc document, repairs := pipelineRepairs document,
        shouldDelete := false } := by
  simp only [repairDocument, validate_users_eq]
  have hrules : (validationRules "users").getD emptyRuleSet = usersRules := rfl
  rw [hrules, foldl_pipeline, usersValidation_any_delete]


theorem pipelineDoc_apply_other (document : Doc) (g : String)
    (hE : g ≠ "email") (hR : g ≠ "role") (hA : g ≠ "age") :
    pipelineDoc document g = document g := by
  unfold pipelineDoc
  rcases ageClampVal (document "age") with _ | kc <;>
    split_ifs <;> simp [Doc.set, hE, hR, hA]

theorem pipelineDoc_apply_email (document : Doc) :
    pipelineDoc document "email" =
      if missingValue (document "email") then defaultEmailVal else document "email" := by
  unfold pipelineDoc
  rcases ageClampVal (document "age") with _ | kc <;>
    split_ifs <;> simp_all [Doc.set]

theorem pipelineDoc_apply_role (document : Doc) :
    pipelineDoc document "role" =
      if roleNeedsDefault (document "role") then defaultRoleVal else document "role" := by
  unfold pipelineDoc
  rcases ageClampVal (document "age") with _ | kc <;>
    split_ifs <;> simp_all [Doc.set]

theorem pipelineDoc_apply_age (document : Doc) :
    pipelineDoc document "age" =
      match ageClampVal (document "age") with
      | some kc => some (Value.num kc.2)
      | none => document "age" := by
  unfold pipelineDoc
  rcases ageClampVal (document "age") with _ | kc <;>
    split_ifs <;> simp_all [Doc.set]

theorem ageClampVal_snd (v : Option Value) (kc : Int × Int)
    (h : ageClampVal v = some kc) : kc.2 = 0 ∨ kc.2 = 150 := by
  unfold ageClampVal at h
  rcases v with _ | w
  · simp at h
  · dsimp only at h
    rcases hk : coerceForCompare w with _ | k <;> rw [hk] at h
    · exact absurd h (by simp)
    · dsimp only at h
      by_cases h1 : k < 0
      · rw [if_pos h1] at h
        have h4 := Option.some_inj.mp h
        subst h4
        left
        rfl
      · rw [if_neg h1] at h
        by_cases h2 : k > 150
        · rw [if_pos h2] at h
          have h4 := Option.some_inj.mp h
          subst h4
          right
          rfl
        · rw [if_neg h2] at h
          exact absurd h (by simp)

theorem subset_append_of {α : Type} {a b c d : List α} (h1 : a ⊆ c) (h2 : b ⊆ d) :
    a ++ b ⊆ c ++ d := by
  intro x hx
  rcases List.mem_append.mp hx with h | h
  · exact List.mem_append.mpr (Or.inl (h1 h))
  · exact List.mem_append.mpr (Or.inr (h2 h))

theorem requiredFieldIssue_default_email :
    requiredFieldIssue defaultEmailVal "email" = [] := by
  simp [requiredFieldIssue, missingValue, defaultEmailVal]

theorem fieldTypeIssue_default_email :
    fieldTypeIssue defaultEmailVal "email" "string" = [] := by
  simp [fieldTypeIssue, defaultEmailVal, typeofValue]

theorem fieldTypeIssue_num (n : Int) (f : String) :
    fieldTypeIssue (some (Value.num n)) f "number" = [] := by
  simp [fieldTypeIssue, typeofValue]

theorem fieldTypeIssue_default_role :
    fieldTypeIssue defaultRoleVal "role" "string" = [] := by
  simp [fieldTypeIssue, defaultRoleVal, typeofValue]

theorem allowedValuesIssue_default_role :
    allowedValuesIssue defaultRoleVal "role" allowedRoles = [] := by
  simp [allowedValuesIssue, defaultRoleVal, allowedRoles]

theorem valueRangeIssue_atMin :
    valueRangeIssue (some (Value.num 0)) "age" 0 150 = [] := by
  simp [valueRangeIssue, coerceForCompare]

theorem valueRangeIssue_atMax :
    valueRangeIssue (some (Value.num 150)) "age" 0 150 = [] := by
  simp [valueRangeIssue, coerceForCompare]

theorem customValidationIssue_default_email :
    customValidationIssue defaultEmailVal "email" emailCheck = [] := by
  have h : emailCheck (Value.str "missing@example.com") = true := by decide
  simp [customValidationIssue, defaultEmailVal, h]

theorem validate_pipeline_subset (document : Doc) :
    validateDocument (pipelineDoc document) "users" ⊆ validateDocument document "users" := by
  rw [validate_users_eq, validate_users_eq]
  unfold usersValidation
  refine subset_append_of (subset_append_of (subset_append_of (subset_append_of
    (subset_append_of (subset_append_of (subset_append_of (subset_append_of
      (subset_append_of ?_ ?_) ?_) ?_) ?_) ?_) ?_) ?_) ?_) ?_
  · rw [pipelineDoc_apply_other document "name" (by decide) (by decide) (by decide)]
    exact List.Subset.refl _
  · rw [pipelineDoc_apply_email]
    split
    · rw [requiredFieldIssue_default_email]
      exact List.nil_subset _
    · exact List.Subset.refl _
  · rw [pipelineDoc_apply_other document "name" (by decide) (by decide) (by decide)]
    exact List.Subset.refl _
  · rw [pipelineDoc_apply_email]
    split
    · rw [fieldTypeIssue_default_email]
      exact List.nil_subset _
    · exact List.Subset.refl _
  · rw [pipelineDoc_apply_age]
    rcases hA : ageClampVal (document "age") with _ | kc
    · exact List.Subset.refl _
    · dsimp only
      rw [fieldTypeIssue_num]
      exact List.nil_subset _
  · rw [pipelineDoc_apply_role]
    split
    · rw [fieldTypeIssue_default_role]
      exact List.nil_subset _
    · exact List.Subset.refl _
  · rw [pipelineDoc_apply_other document "isActive" (by decide) (by decide) (by decide)]
    exact List.Subset.refl _
  · rw [pipelineDoc_apply_role]
    split
    · rw [allowedValuesIssue_default_role]
      exact List.nil_subset _
    · exact List.Subset.refl _
  · rw [pipelineDoc_apply_age]
    rcases hA : ageClampVal (document "age") with _ | kc
    · exact List.Subset.refl _
    · dsimp only
      rcases ageClampVal_snd _ _ hA with h | h <;> rw [h]
      · rw [valueRangeIssue_atMin]
        exact List.nil_subset _
      · rw [valueRangeIssue_atMax]
        exact List.nil_subset _
  · rw [pipelineDoc_apply_email]
    split
    · rw [customValidationIssue_default_email]
      exact List.nil_subset _
    · exact List.Subset.refl _

theorem mem_requiredFieldIssue {it : ValidationItem} {v : Option Value} {f : String}
    (h : it ∈ requiredFieldIssue v f) :
    ∃ d, it = mkIssue f "missing_required_field" "high" d := by
  unfold requiredFieldIssue at h
  split at h
  · exact ⟨_, List.mem_singleton.mp h⟩
  · exact absurd h (List.not_mem_nil it)

theorem mem_fieldTypeIssue {it : ValidationItem} {v : Option Value} {f t : String}
    (h : it ∈ fieldTypeIssue v f t) :
    ∃ d, it = mkIssue f "invalid_type" "medium" d := by
  unfold fieldTypeIssue at h
  rcases v with _ | w
  · exact absurd h (List.not_mem_nil it)
  · dsimp only at h
    repeat' split at h
    all_goals
      first
        | exact absurd h (List.not_mem_nil it)
        | exact ⟨_, List.mem_singleton.mp h⟩

theorem mem_allowedValuesIssue {it : ValidationItem} {v : Option Value} {f : String}
    {allowed : List Value} (h : it ∈ allowedValuesIssue v f allowed) :
    ∃ d, it = mkIssue f "invalid_value" "high" d := by
  unfold allowedValuesIssue at h
  repeat' split at h
  all_goals
    first
      | exact absurd h (List.not_mem_nil it)
      | exact ⟨_, List.mem_singleton.mp h⟩

theorem mem_valueRangeIssue {it : ValidationItem} {v : Option Value} {f : String}
    {lo hi : Int} (h : it ∈ valueRangeIssue v f lo hi) :
    ∃ d, it = mkIssue f "out_of_range" "medium" d := by
  unfold valueRangeIssue at h
  repeat' split at h
  all_goals
    first
      | exact absurd h (List.not_mem_nil it)
      | exact ⟨_, List.mem_singleton.mp h⟩

theorem mem_customValidationIssue {it : ValidationItem} {v : Option Value} {f : String}
    {pred : Value → Bool} (h : it ∈ customValidationIssue v f pred) :
    ∃ d, it = mkIssue f "custom_validation_failed" "medium" d := by
  unfold customValidationIssue at h
  repeat' split at h
  all_goals
    first
      | exact absurd h (List.not_mem_nil it)
      | exact ⟨_, List.mem_singleton.mp h⟩

theorem fieldTypeIssue_age_parse_ok (s : String) (hp : (parseInt s).isSome = true) :
    fieldTypeIssue (some (Value.str s)) "age" "number" = [] := by
  rcases hq : parseInt s with _ | k
  · rw [hq] at hp
    exact absurd hp (by simp)
  · simp [fieldTypeIssue, typeofValue, hq]

/-- In the validator's output a structured issue on the age field with
kind invalid_type can only come from the field-type check of the age
field itself; when the age value is a string that parseInt accepts, that
check produces nothing. -/
theorem validate_users_no_itype_age (document : Doc) (s : String)
    (hdoc : document "age" = some (Value.str s)) (hp : (parseInt s).isSome = true)
    (i : Issue) (hmem : ValidationItem.issueItem i ∈ validateDocument document "users") :
    ¬(i.field = "age" ∧ i.issue = "invalid_type") := by
  rintro ⟨hf, hk⟩
  rw [validate_users_eq] at hmem
  unfold usersValidation at hmem
  rw [hdoc, fieldTypeIssue_age_parse_ok s hp] at hmem
  simp only [List.mem_append, List.append_nil, List.not_mem_nil, or_false, false_or] at hmem
  rcases hmem with ((((((((h | h) | h) | h) | h) | h) | h) | h) | h)
  · rcases mem_requiredFieldIssue h with ⟨d, hd⟩
    simp only [mkIssue] at hd
    injection hd with hd2
    subst hd2
    simp at hf hk
  · rcases mem_requiredFieldIssue h with ⟨d, hd⟩
    simp only [mkIssue] at hd
    injection hd with hd2
    subst hd2
    simp at hf hk
  · rcases mem_fieldTypeIssue h with ⟨d, hd⟩
    simp only [mkIssue] at hd
    injection hd with hd2
    subst hd2
    simp at hf hk
  · rcases mem_fieldTypeIssue h with ⟨d, hd⟩
    simp only [mkIssue] at hd
    injection hd with hd2
    subst hd2
    simp at hf hk
  · rcases mem_fieldTypeIssue h with ⟨d, hd⟩
    simp only [mkIssue] at hd
    injection hd with hd2
    subst hd2
    simp at hf hk
  · rcases mem_fieldTypeIssue h with ⟨d, hd⟩
    simp only [mkIssue] at hd
    injection hd with hd2
    subst hd2
    simp at hf hk
  · rcases mem_allowedValuesIssue h with ⟨d, hd⟩
    simp only [mkIssue] at hd
    injection hd with hd2
    subst hd2
    simp at hf hk
  · rcases mem_valueRangeIssue h with ⟨d, hd⟩
    simp only [mkIssue] at hd
    injection hd with hd2
    subst hd2
    simp at hf hk
  · rcases mem_customValidationIssue h with ⟨d, hd⟩
    simp only [mkIssue] at hd
    injection hd with hd2
    subst hd2
    simp at hf hk

theorem valueRangeIssue_num_inrange (v : Int) (h1 : 0 ≤ v) (h2 : v ≤ 150) :
    valueRangeIssue (some (Value.num v)) "age" 0 150 = [] := by
  have hno : ¬(v < 0 ∨ v > 150) := not_or.mpr ⟨not_lt.mpr h1, not_lt.mpr h2⟩
  simp [valueRangeIssue, coerceForCompare, hno]

/-- A structured issue of kind out_of_range can only come from the range
check; for an in-range numeric age no segment produces one. -/
theorem validate_users_no_oor (document : Doc) (v : Int)
    (hdoc : document "age" = some (Value.num v)) (h1 : 0 ≤ v) (h2 : v ≤ 150)
    (i : Issue) (hmem : ValidationItem.issueItem i ∈ validateDocument document "users") :
    i.issue ≠ "out_of_range" := by
  intro hk
  rw [validate_users_eq] at hmem
  unfold usersValidation at hmem
  rw [hdoc, fieldTypeIssue_num, valueRangeIssue_num_inrange v h1 h2] at hmem
  simp only [List.mem_append, List.append_nil, List.not_mem_nil, or_false, false_or] at hmem
  rcases hmem with (((((((h | h) | h) | h) | h) | h) | h) | h)
  · rcases mem_requiredFieldIssue h with ⟨d, hd⟩
    simp only [mkIssue] at hd
    injection hd with hd2
    subst hd2
    simp at hk
  · rcases mem_requiredFieldIssue h with ⟨d, hd⟩
    simp only [mkIssue] at hd
    injection hd with hd2
    subst hd2
    simp at hk
  · rcases mem_fieldTypeIssue h with ⟨d, hd⟩
    simp only [mkIssue] at hd
    injection hd with hd2
    subst hd2
    simp at hk
  · rcases mem_fieldTypeIssue h with ⟨d, hd⟩
    simp only [mkIssue] at hd
    injection hd with hd2
    subst hd2
    simp at hk
  · rcases mem_fieldTypeIssue h with ⟨d, hd⟩
    simp only [mkIssue] at hd
    injection hd with hd2
    subst hd2
    simp at hk
  · rcases mem_fieldTypeIssue h with ⟨d, hd⟩
    simp only [mkIssue] at hd
    injection hd with hd2
    subst hd2
    simp at hk
  · rcases mem_allowedValuesIssue h with ⟨d, hd⟩
    simp only [mkIssue] at hd
    injection hd with hd2
    subst hd2
    simp at hk
  · rcases mem_customValidationIssue h with ⟨d, hd⟩
    simp only [mkIssue] at hd
    injection hd with hd2
    subst hd2
    simp at hk

theorem repairStep_shape (rules : RuleSet) (document : Doc) (st : Doc × List RepairAction)
    (it : ValidationItem) :
    repairStep rules document st it = st ∨
      ∃ f v a, repairStep rules document st it = (Doc.set st.1 f v, st.2 ++ [a]) ∧
        RepairAction.field a = f := by
  cases it with
  | rawMsg m => exact Or.inl rfl
  | issueItem i =>
    unfold repairStep
    dsimp only
    repeat' split
    all_goals
      first
        | exact Or.inl rfl
        | exact Or.inr ⟨_, _, _, rfl, rfl⟩

theorem foldl_repairs_extend (rules : RuleSet) (document : Doc) (l : List ValidationItem) :
    ∀ (st : Doc × List RepairAction) (r : RepairAction), r ∈ st.2 →
      r ∈ (List.foldl (repairStep rules document) st l).2 := by
  induction l with
  | nil => exact fun st r h => h
  | cons it l ih =>
    intro st r h
    rw [List.foldl_cons]
    apply ih
    rcases repairStep_shape rules document st it with hs | ⟨f, v, a, hs, hfield⟩
    · rw [hs]
      exact h
    · rw [hs]
      exact List.mem_append.mpr (Or.inl h)

theorem foldl_frame (rules : RuleSet) (document : Doc) (l : List ValidationItem) :
    ∀ (st : Doc × List RepairAction) (g : String),
      (∀ r ∈ (List.foldl (repairStep rules document) st l).2, r.field ≠ g) →
      (List.foldl (repairStep rules document) st l).1 g = st.1 g := by
  induction l with
  | nil => exact fun st g _ => rfl
  | cons it l ih =>
    intro st g h
    rw [List.foldl_cons] at h ⊢
    rcases repairStep_shape rules document st it with hs | ⟨f, v, a, hs, hfield⟩
    · rw [hs] at h ⊢
      exact ih st g h
    · rw [hs] at h ⊢
      have h2 := ih _ g h
      rw [h2]
      have hmem : a ∈ (List.foldl (repairStep rules document)
          (Doc.set st.1 f v, st.2 ++ [a]) l).2 :=
        foldl_repairs_extend rules document l _ a
          (List.mem_append.mpr (Or.inr (List.mem_singleton.mpr rfl)))
      have hne : f ≠ g := hfield ▸ h a hmem
      show Doc.set st.1 f v g = st.1 g
      unfold Doc.set
      rw [if_neg (fun hh => hne hh.symm)]

theorem pipelineRepairs_no_conversion (document : Doc) (r : RepairAction)
    (hr : r ∈ pipelineRepairs document) : r.action ≠ "type_conversion" := by
  unfold pipelineRepairs at hr
  simp only [List.mem_append] at hr
  rcases hr with (h | h) | h
  · split at h
    · have h2 := List.mem_singleton.mp h
      subst h2
      simp [mkAction]
    · exact absurd h (List.not_mem_nil r)
  · split at h
    · have h2 := List.mem_singleton.mp h
      subst h2
      simp [mkAction]
    · exact absurd h (List.not_mem_nil r)
  · rcases hA : ageClampVal (document "age") with _ | kc <;> rw [hA] at h
    · exact absurd h (List.not_mem_nil r)
    · dsimp only at h
      have h2 := List.mem_singleton.mp h
      subst h2
      by_cases hlo : kc.1 < 0
      · simp [mkAction, hlo]
      · simp [mkAction, hlo]

/-- C3: for every completed scan report the Status Projector computes
isConsistent as true exactly when inconsistenciesFound is zero or equals
repairsApplied plus documentsDeleted, and allReplicasConsistent always
equals isConsistent. -/
theorem claim_C3 (collectionName : String) (report : Report) :
    ((updateConsistencyStatus collectionName report).isConsistent = true ↔
      (report.inconsistenciesFound = 0 ∨
        report.inconsistenciesFound = report.repairsApplied + report.documentsDeleted)) ∧
    (updateConsistencyStatus collectionName report).allReplicasConsistent =
      (updateConsistencyStatus collectionName report).isConsistent := by
  constructor
  · simp [updateConsistencyStatus]
  · rfl

/-- C4: checkCollection rejects with the already-in-progress error
exactly when the running flag is set at entry (the rejection outcome
carries no report), and on every other exit path, for every fetch
outcome and every pattern of per-document faults, it returns a report
with the running flag reset to false. -/
theorem claim_C4 (isRunning : Bool) (collectionName : String)
    (fetchResult : Except String (List StoredDoc)) (docFault : String → Option String) :
    (checkCollection isRunning collectionName fetchResult docFault =
        ScanOutcome.alreadyRunning ↔ isRunning = true) ∧
    (isRunning = false → ∃ report,
      checkCollection isRunning collectionName fetchResult docFault =
        ScanOutcome.completed report false) := by
  constructor
  · cases isRunning
    · cases fetchResult <;> simp [checkCollection]
    · simp [checkCollection]
  · intro h
    subst h
    cases fetchResult with
    | error msg => exact ⟨_, rfl⟩
    | ok documents => exact ⟨_, rfl⟩

theorem claim_C4_witness :
    (checkCollection true "users" (Except.ok []) (fun _ => none) =
      ScanOutcome.alreadyRunning) ∧
    ∃ report, checkCollection false "users" (Except.ok []) (fun _ => none) =
      ScanOutcome.completed report false :=
  ⟨(claim_C4 true "users" (Except.ok []) (fun _ => none)).1.mpr rfl,
   (claim_C4 false "users" (Except.ok []) (fun _ => none)).2 rfl⟩

/-- C5: validateDocument is a total function, and for every document and
every collection name with no configured rule set it returns exactly one
synthetic element describing the missing rule set instead of failing. -/
theorem claim_C5 (document : Doc) (collection : String)
    (h : validationRules collection = none) :
    validateDocument document collection =
      [ValidationItem.rawMsg ("No validation rules found for collection: " ++ collection)] := by
  unfold validateDocument
  rw [h]

theorem claim_C5_witness :
    validateDocument emptyDoc "orders" =
      [ValidationItem.rawMsg ("No validation rules found for collection: " ++ "orders")] :=
  claim_C5 emptyDoc "orders" rfl

/-- C1, counterexample: on the issue list holding one high-severity
invalid_value issue for the age field, repairDocument sets shouldDelete
although a default value for age is configured in the defaultValues map
(the configured default 0 is JavaScript-falsy), so the deletion verdict
differs from the claimed one. -/
theorem claim_C1_counterexample :
    (repairDocument emptyDoc [mkIssue "age" "invalid_value" "high" "seeded"]
        "users").shouldDelete = true ∧
    specDeleteFlag [mkIssue "age" "invalid_value" "high" "seeded"] = false ∧
    jsGet usersRules.defaultValues "age" = some (Value.num 0) := by
  refine ⟨rfl, rfl, rfl⟩

/-- C1, amended: shouldDelete is true exactly when some issue in the
list has severity high, kind invalid_value, and a field whose configured
default is absent or JavaScript-falsy. -/
theorem claim_C1_amended (document : Doc) (issues : List ValidationItem) :
    (repairDocument document issues "users").shouldDelete = true ↔
      ∃ i : Issue, ValidationItem.issueItem i ∈ issues ∧ i.severity = "high" ∧
        i.issue = "invalid_value" ∧ isTruthy (jsGet usersRules.defaultValues i.field) = false := by
  have hrules : (validationRules "users").getD emptyRuleSet = usersRules := rfl
  unfold repairDocument
  rw [hrules]
  dsimp only
  rw [List.any_eq_true]
  constructor
  · rintro ⟨it, hmem, hp⟩
    cases it with
    | rawMsg m => simp [deleteCheck] at hp
    | issueItem i =>
      simp only [deleteCheck, Bool.and_eq_true, decide_eq_true_eq, Bool.not_eq_true'] at hp
      exact ⟨i, hmem, hp.1.1, hp.1.2, hp.2⟩
  · rintro ⟨i, hmem, h1, h2, h3⟩
    refine ⟨ValidationItem.issueItem i, hmem, ?_⟩
    simp [deleteCheck, h1, h2, h3]

theorem claim_C1_witness :
    (repairDocument emptyDoc [mkIssue "role" "invalid_value" "high" "w2"]
        "users").shouldDelete = false :=
  Bool.not_eq_true _ ▸ (by
    intro hcontra
    rcases (claim_C1_amended emptyDoc [mkIssue "role" "invalid_value" "high" "w2"]).mp hcontra
      with ⟨i, hmem, h1, h2, h3⟩
    have hi : ValidationItem.issueItem i = mkIssue "role" "invalid_value" "high" "w2" := by
      simpa using hmem
    simp only [mkIssue] at hi
    injection hi with hi2
    subst hi2
    simp [usersRules, jsGet, isTruthy] at h3)
/-- C6, counterexample: the age field has a configured default (0) in
the defaultValues map, yet repairDocument applied to a
missing_required_field issue for age records no repair and leaves the
field absent, because the truthiness test rejects the falsy default. -/
theorem claim_C6_counterexample :
    jsGet usersRules.defaultValues "age" = some (Value.num 0) ∧
    (repairDocument emptyDoc [mkIssue "age" "missing_required_field" "high" "seeded"]
        "users").repairs = [] ∧
    (repairDocument emptyDoc [mkIssue "age" "missing_required_field" "high" "seeded"]
        "users").document "age" = none := by
  refine ⟨rfl, rfl, rfl⟩

/-- C6, amended: for a missing_required_field issue, when the configured
default is truthy the field is set to it and a set_default action is
recorded; when the default is absent or falsy, no repair action is
recorded, the document is unchanged (an absent field stays absent), and
the document is not marked for deletion. -/
theorem claim_C6_amended (document : Doc) (f sv d : String) :
    (isTruthy (jsGet usersRules.defaultValues f) = true →
      (repairDocument document [mkIssue f "missing_required_field" sv d] "users").document f =
          jsGet usersRules.defaultValues f ∧
      (repairDocument document [mkIssue f "missing_required_field" sv d] "users").repairs =
          [mkAction f "set_default" none (jsGet usersRules.defaultValues f)]) ∧
    (isTruthy (jsGet usersRules.defaultValues f) = false →
      (repairDocument document [mkIssue f "missing_required_field" sv d] "users").repairs = [] ∧
      (∀ g, (repairDocument document [mkIssue f "missing_required_field" sv d]
          "users").document g = document g) ∧
      (repairDocument document [mkIssue f "missing_required_field" sv d]
          "users").shouldDelete = false) := by
  have hrules : (validationRules "users").getD emptyRuleSet = usersRules := rfl
  have hstep := repairStep_mk_missing usersRules document
    (document, ([] : List RepairAction)) f sv d
  constructor
  · intro ht
    rw [if_pos ht] at hstep
    unfold repairDocument
    rw [hrules]
    dsimp only
    rw [List.foldl_cons, List.foldl_nil, hstep]
    dsimp only
    constructor
    · unfold Doc.set
      rw [if_pos rfl]
    · rw [List.nil_append]
  · intro hf
    rw [if_neg (by rw [hf]; exact Bool.false_ne_true)] at hstep
    unfold repairDocument
    rw [hrules]
    dsimp only
    rw [List.foldl_cons, List.foldl_nil, hstep]
    refine ⟨rfl, fun g => rfl, ?_⟩
    simp [deleteCheck, mkIssue]

theorem claim_C6_witness :
    (repairDocument emptyDoc [mkIssue "email" "missing_required_field" "high" "w"]
        "users").document "email" = some (Value.str "missing@example.com") ∧
    (repairDocument emptyDoc [mkIssue "name" "missing_required_field" "high" "w"]
        "users").repairs = [] :=
  ⟨((claim_C6_amended emptyDoc "email" "high" "w").1 (by decide)).1,
   ((claim_C6_amended emptyDoc "name" "high" "w").2 (by decide)).1⟩

/-- C8: the repaired document agrees with the input on every field not
named in some recorded repair action, and for an empty issue list the
repaired document is value-equal to the input with shouldDelete false. -/
theorem claim_C8 (document : Doc) (issues : List ValidationItem) :
    (∀ g : String, (∀ r ∈ (repairDocument document issues "users").repairs, r.field ≠ g) →
      (repairDocument document issues "users").document g = document g) ∧
    (issues = [] →
      (∀ g, (repairDocument document issues "users").document g = document g) ∧
      (repairDocument document issues "users").shouldDelete = false) := by
  constructor
  · intro g hg
    unfold repairDocument at hg ⊢
    dsimp only at hg ⊢
    exact foldl_frame _ document issues (document, []) g hg
  · rintro rfl
    exact ⟨fun g => rfl, rfl⟩

theorem claim_C8_witness :
    (repairDocument emptyDoc [mkIssue "email" "missing_required_field" "high" "w8"]
        "users").document "name" = emptyDoc "name" ∧
    (repairDocument emptyDoc [] "users").document "age" = emptyDoc "age" ∧
    (repairDocument emptyDoc [] "users").shouldDelete = false :=
  ⟨(claim_C8 emptyDoc [mkIssue "email" "missing_required_field" "high" "w8"]).1 "name"
      (by decide),
   ((claim_C8 emptyDoc []).2 rfl).1 "age",
   ((claim_C8 emptyDoc []).2 rfl).2⟩

/-- C9: repair is a fixed point of the validate-then-repair pipeline:
every issue the validator reports on the repaired document was already
reported on the original document, so the pipeline introduces no new
issues. -/
theorem claim_C9 (document : Doc) (it : ValidationItem)
    (hit : it ∈ validateDocument
      ((repairDocument document (validateDocument document "users") "users").document)
      "users") :
    it ∈ validateDocument document "users" := by
  have hdoc : (repairDocument document (validateDocument document "users") "users").document =
      pipelineDoc document := by rw [repair_pipeline_eq]
  rw [hdoc] at hit
  exact validate_pipeline_subset document hit

theorem claim_C9_witness :
    mkIssue "name" "missing_required_field" "high"
        "Required field 'name' is missing or empty" ∈ validateDocument c9Doc "users" :=
  claim_C9 c9Doc _ (by decide)

/-- C10: parseInt-based numeric parsing accepts an integer head with
trailing garbage, so a numeric field holding such a string produces no
invalid_type issue from the validator. -/
theorem claim_C10 (document : Doc) (s : String)
    (hdoc : document "age" = some (Value.str s)) (hp : (parseInt s).isSome = true) :
    parseInt "42abc" = some 42 ∧
    ∀ i : Issue, ValidationItem.issueItem i ∈ validateDocument document "users" →
      ¬(i.field = "age" ∧ i.issue = "invalid_type") :=
  ⟨rfl, fun i hmem => validate_users_no_itype_age document s hdoc hp i hmem⟩

theorem claim_C10_witness :
    parseInt "42abc" = some 42 :=
  (claim_C10 c10Doc "42abc" rfl (by decide)).1
/-- C2, counterexample: a document whose numeric age field holds the
parseable string "42" validates cleanly, and the validate-then-repair
pipeline records no repair action at all, in particular no
type_conversion: the repairer only acts on issues it receives, and the
parseable string raises none. -/
theorem claim_C2_counterexample :
    c2Doc "age" = some (Value.str "42") ∧ parseInt "42" = some 42 ∧
    validateDocument c2Doc "users" = [] ∧
    (repairDocument c2Doc (validateDocument c2Doc "users") "users").repairs = [] := by
  refine ⟨rfl, rfl, by decide, by decide⟩

/-- C2, amended: a numeric field holding a parseable numeric string
yields no invalid_type issue at validation; consequently the pipeline of
validateDocument then repairDocument records no type_conversion action;
repairDocument performs the conversion, with the correctly parsed
integer, exactly when an invalid_type issue for the field is supplied in
the issue list. -/
theorem claim_C2_amended (document : Doc) (s : String) (n : Int)
    (hdoc : document "age" = some (Value.str s)) (hp : parseInt s = some n) :
    (∀ i : Issue, ValidationItem.issueItem i ∈ validateDocument document "users" →
      ¬(i.field = "age" ∧ i.issue = "invalid_type")) ∧
    (∀ r ∈ (repairDocument document (validateDocument document "users") "users").repairs,
      r.action ≠ "type_conversion") ∧
    ∀ sv d,
      (repairDocument document [mkIssue "age" "invalid_type" sv d] "users").repairs =
        [mkAction "age" "type_conversion" (some (Value.str s)) (some (Value.num n))] ∧
      (repairDocument document [mkIssue "age" "invalid_type" sv d] "users").document "age" =
        some (Value.num n) := by
  refine ⟨?_, ?_, ?_⟩
  · exact fun i hmem =>
      validate_users_no_itype_age document s hdoc (by rw [hp]; rfl) i hmem
  · intro r hr
    have h2 : (repairDocument document (validateDocument document "users") "users").repairs =
        pipelineRepairs document := by rw [repair_pipeline_eq]
    rw [h2] at hr
    exact pipelineRepairs_no_conversion document r hr
  · intro sv d
    have hrules : (validationRules "users").getD emptyRuleSet = usersRules := rfl
    have hstep := repairStep_mk_itype_age usersRules document
      (document, ([] : List RepairAction)) sv d
    dsimp only at hstep
    rw [hdoc] at hstep
    dsimp only at hstep
    rw [hp] at hstep
    dsimp only at hstep
    constructor
    · unfold repairDocument
      rw [hrules]
      dsimp only
      rw [List.foldl_cons, List.foldl_nil, hstep]
      rw [List.nil_append]
    · unfold repairDocument
      rw [hrules]
      dsimp only
      rw [List.foldl_cons, List.foldl_nil, hstep]
      dsimp only
      unfold Doc.set
      rw [if_pos rfl]

theorem claim_C2_witness :
    (repairDocument c2Doc [mkIssue "age" "invalid_type" "medium" "w2c"] "users").repairs =
      [mkAction "age" "type_conversion" (some (Value.str "42")) (some (Value.num 42))] :=
  ((claim_C2_amended c2Doc "42" 42 rfl rfl).2.2 "medium" "w2c").1

/-- C7: through the validate-then-repair pipeline a numeric age strictly
below the minimum is clamped to exactly the minimum with a clamp_to_min
action, one strictly above the maximum is clamped to exactly the maximum
with a clamp_to_max action, and an in-range value (the bounds included)
produces no out_of_range issue. -/
theorem claim_C7 (document : Doc) (v : Int)
    (hdoc : document "age" = some (Value.num v)) :
    (v < 0 →
      (repairDocument document (validateDocument document "users") "users").document "age" =
          some (Value.num 0) ∧
      mkAction "age" "clamp_to_min" (some (Value.num v)) (some (Value.num 0)) ∈
        (repairDocument document (validateDocument document "users") "users").repairs) ∧
    (v > 150 →
      (repairDocument document (validateDocument document "users") "users").document "age" =
          some (Value.num 150) ∧
      mkAction "age" "clamp_to_max" (some (Value.num v)) (some (Value.num 150)) ∈
        (repairDocument document (validateDocument document "users") "users").repairs) ∧
    (0 ≤ v → v ≤ 150 →
      ∀ i : Issue, ValidationItem.issueItem i ∈ validateDocument document "users" →
        i.issue ≠ "out_of_range") := by
  refine ⟨?_, ?_, ?_⟩
  · intro hv
    have hA : ageClampVal (document "age") = some (v, 0) := by
      rw [hdoc]
      simp [ageClampVal, coerceForCompare, hv]
    rw [repair_pipeline_eq]
    dsimp only
    constructor
    · rw [pipelineDoc_apply_age, hA]
    · unfold pipelineRepairs
      rw [hA]
      dsimp only
      refine List.mem_append.mpr (Or.inr ?_)
      rw [if_pos hv]
      exact List.mem_singleton.mpr rfl
  · intro hv
    have hA : ageClampVal (document "age") = some (v, 150) := by
      rw [hdoc]
      have hnl : ¬(v < 0) := by omega
      simp [ageClampVal, coerceForCompare, hnl, hv]
    rw [repair_pipeline_eq]
    dsimp only
    constructor
    · rw [pipelineDoc_apply_age, hA]
    · unfold pipelineRepairs
      rw [hA]
      dsimp only
      refine List.mem_append.mpr (Or.inr ?_)
      rw [if_neg (by omega : ¬((v, 150).1 < 0))]
      exact List.mem_singleton.mpr rfl
  · exact fun h1 h2 i hmem => validate_users_no_oor document v hdoc h1 h2 i hmem

theorem claim_C7_witness :
    (repairDocument c7Doc (validateDocument c7Doc "users") "users").document "age" =
        some (Value.num 0) ∧
    mkAction "age" "clamp_to_min" (some (Value.num (-5))) (some (Value.num 0)) ∈
      (repairDocument c7Doc (validateDocument c7Doc "users") "users").repairs :=
  (claim_C7 c7Doc (-5) rfl).1 (by decide)
end DataConsistency
